import Mathlib

/-!
Shallow embedding of the stock ranking pipeline (`src/stock_data.py`):
`fetch_history`, `rank_top_performers` and `merge_top_history`, together
with theorems settling the specification's claims about them.

Modelling choices:
* Prices are rationals (`Rat`); the Python code uses IEEE floats, but every
  claim at stake concerns exact table values away from representation
  boundaries.
* A wide pandas DataFrame of closes (dates as index, tickers as columns) is
  a `PriceTable`: the list of dates plus one `(name, values)` column per
  ticker, column order as in the frame.  The raw pre-normalization frame,
  whose cells may be NaN, is a `RawTable` with `Option Rat` cells (`none`
  plays NaN).
* The network call `yf.download` is an explicit functional parameter
  `download`; a `.error` result models the transport exception that the
  code wraps into `RuntimeError` (the spec's `RetrievalFailure`).
* `.round(2)` rounds half to even at the second decimal, as numpy does on
  the scaled value.
* `sort_values("pct_change", ascending=False)` is modelled by a
  descending insertion sort.  The real call uses numpy's default
  `kind='quicksort'` (introsort), whose ordering of EQUAL keys is
  unspecified beyond its 16-element insertion-sort regime, so only the
  tie-insensitive consequences of the model are used: descending
  sortedness, the row count and row membership (which hold of every
  correct descending sort), and the concrete small distinct-key tables of
  the scenario claims, where the two sorts coincide.
-/

namespace Stocks

/-- Round a rational half-to-even to an integer (numpy `rint`). -/
def roundHalfEven (q : Rat) : Int :=
  let n := ⌊q⌋
  let frac := q - n
  if frac < 1/2 then n
  else if 1/2 < frac then n + 1
  else if n % 2 = 0 then n else n + 1

/-- Python `x.round(2)`: round to two decimal places. -/
def round2 (q : Rat) : Rat := (roundHalfEven (q * 100) : Rat) / 100

/-- A normalized wide frame of closes: dates as the index, one column of
prices per ticker, in frame column order. -/
structure PriceTable where
  dates : List Nat
  cols : List (String × List Rat)
deriving DecidableEq, Repr

/-- A raw frame as returned by the data source: cells may be missing
(`none` models NaN). -/
structure RawTable where
  dates : List Nat
  cols : List (String × List (Option Rat))
deriving DecidableEq, Repr

/-- Pandas `df.empty` for the raw frame: one of the axes has length 0. -/
def RawTable.isEmptyTable (t : RawTable) : Bool :=
  t.dates.isEmpty || t.cols.isEmpty

/-- Pandas `df.empty` for a normalized frame. -/
def PriceTable.isEmptyTable (t : PriceTable) : Bool :=
  t.dates.isEmpty || t.cols.isEmpty

/-- Pandas `closes.dropna(axis=1, how="all")`: drop columns with no data at all. -/
def dropAllNaNCols (t : RawTable) : RawTable :=
  ⟨t.dates, t.cols.filter (fun c => c.2.any (fun x => x.isSome))⟩

/-- Row `i` survives `dropna()`: every remaining column has a value there. -/
def rowComplete (cols : List (String × List (Option Rat))) (i : Nat) : Bool :=
  cols.all (fun c => (c.2.getD i none).isSome)

/-- Pandas `closes.dropna()`: keep exactly the rows where no remaining column is
missing a value; the surviving cells are all present. -/
def dropNaNRows (t : RawTable) : PriceTable :=
  let keep := (List.range t.dates.length).filter (rowComplete t.cols)
  ⟨keep.map (fun i => t.dates.getD i 0),
   t.cols.map (fun c => (c.1, keep.map (fun i => (c.2.getD i none).getD 0)))⟩

/-- The normalization step of `fetch_history`:
`closes.dropna(axis=1, how="all").dropna()`. -/
def normalizeRaw (t : RawTable) : PriceTable :=
  dropNaNRows (dropAllNaNCols t)

/-- Pandas `closes.tail(n)`: the last `n` rows of the frame. -/
def tailTable (n : Nat) (t : PriceTable) : PriceTable :=
  ⟨t.dates.drop (t.dates.length - n),
   t.cols.map (fun c => (c.1, c.2.drop (t.dates.length - n)))⟩

/-- Python `str.strip()`: drop leading and trailing whitespace (written by
structural recursion over the character list, as `String.trim` itself is not
kernel-reducible). -/
def pyStrip (s : String) : String :=
  ⟨((s.data.dropWhile Char.isWhitespace).reverse.dropWhile Char.isWhitespace).reverse⟩

/-- Python `str.upper()` (over the ASCII ticker alphabet). -/
def pyUpper (s : String) : String :=
  ⟨s.data.map Char.toUpper⟩

/-- The list comprehension `[t.strip().upper() for t in ticker_list if t.strip()]`. -/
def normalizeTickers (ts : List String) : List String :=
  (ts.filter (fun t => !(pyStrip t).isEmpty)).map (fun t => pyUpper (pyStrip t))

/-- The error conditions the retrieval/ranking code signals (`ValueError`
messages and the wrapped `RuntimeError`). -/
inductive FetchError where
  | invalidArgument (msg : String)
  | retrievalFailure (msg : String)
  | dataUnavailable (msg : String)
deriving DecidableEq, Repr

/-- The function `fetch_history(tickers, days)`, with the `yf.download` call abstracted
into the `download` parameter (an `Except.error` result is a transport
exception, which the code re-raises as `RuntimeError`). -/
def fetch_history (tickers : List String) (days : Int)
    (download : List String → Except String RawTable) :
    Except FetchError PriceTable :=
  if tickers.isEmpty then
    .error (.invalidArgument "At least one ticker must be provided")
  else if days ≤ 0 then
    .error (.invalidArgument "Days must be a positive integer")
  else
    let ticker_list := normalizeTickers tickers
    if ticker_list.isEmpty then
      .error (.invalidArgument "No valid ticker symbols provided")
    else
      match download ticker_list with
      | .error e => .error (.retrievalFailure ("Failed to fetch stock data: " ++ e))
      | .ok raw =>
        if raw.isEmptyTable then
          .error (.dataUnavailable
            "No price data returned; check tickers or network connectivity.")
        else
          .ok (tailTable days.toNat (normalizeRaw raw))

/-- One row of the summary DataFrame built by `rank_top_performers`. -/
structure SummaryRow where
  ticker : String
  start_price : Rat
  end_price : Rat
  pct_change : Rat
deriving DecidableEq, Repr

/-- The summary row built for one ticker column:
`start_price = closes.iloc[0].round(2)`, `end_price = closes.iloc[-1].round(2)`,
`pct_change = ((end - start) / start * 100).round(2)` on the raw values. -/
def mkRow (c : String × List Rat) : SummaryRow :=
  ⟨c.1, round2 (c.2.headD 0), round2 (c.2.getLastD 0),
   round2 ((c.2.getLastD 0 - c.2.headD 0) / c.2.headD 0 * 100)⟩

/-- The unsorted summary frame, one row per ticker in column order. -/
def baseSummary (closes : PriceTable) : List SummaryRow :=
  closes.cols.map mkRow

/-- Insert a row into a list sorted by `pct_change` descending, before the
first row whose `pct_change` does not exceed it. -/
def insertDesc (x : SummaryRow) : List SummaryRow → List SummaryRow
  | [] => [x]
  | y :: ys =>
    if y.pct_change ≤ x.pct_change then x :: y :: ys else y :: insertDesc x ys

/-- Pandas `summary.sort_values("pct_change", ascending=False)` as a
descending insertion sort; only its tie-insensitive consequences are relied
on, since the default quicksort's tie order is unspecified (see the file
header). -/
def sortDesc : List SummaryRow → List SummaryRow
  | [] => []
  | x :: xs => insertDesc x (sortDesc xs)

/-- Lines 161-176 of `rank_top_performers`, after the fetch: the emptiness
check, the per-ticker summary, the descending sort and `head(top_n)`
(`reset_index(drop=True)` renumbers the index, which a list does not
carry). -/
def rank_core (closes : PriceTable) (top_n : Int) :
    Except FetchError (List SummaryRow) :=
  if closes.isEmptyTable then
    .error (.dataUnavailable
      "No price data returned; check tickers or network connectivity.")
  else
    .ok ((sortDesc (baseSummary closes)).take top_n.toNat)

/-- The ranking engine applied directly to a price table: the `top_n`
precondition check of `rank_top_performers` followed by its post-fetch
body. -/
def rank_on_table (closes : PriceTable) (top_n : Int) :
    Except FetchError (List SummaryRow) :=
  if top_n ≤ 0 then .error (.invalidArgument "top_n must be a positive integer")
  else rank_core closes top_n

/-- The function `rank_top_performers(tickers, days, top_n)`: validate `top_n`, fetch,
then rank. -/
def rank_top_performers (tickers : List String) (days : Int) (top_n : Int)
    (download : List String → Except String RawTable) :
    Except FetchError (List SummaryRow) :=
  if top_n ≤ 0 then .error (.invalidArgument "top_n must be a positive integer")
  else (fetch_history tickers days download).bind (fun closes => rank_core closes top_n)

/-- One row of the long-format frame produced by `merge_top_history`. -/
structure TrajRow where
  date : Nat
  ticker : String
  price : Rat
deriving DecidableEq, Repr

/-- The `KeyError` pandas raises when `closes[tickers]` meets a ticker that
is not a column; it lists the missing keys. -/
inductive MergeError where
  | tickerNotFound (missing : List String)
deriving DecidableEq, Repr

/-- The price series of column `t` (first column of that name). -/
def lookupCol (closes : PriceTable) (t : String) : List Rat :=
  ((closes.cols.find? (fun c => c.1 == t)).map (fun c => c.2)).getD []

/-- Pandas `closes[tickers]`: select the named columns, in the given order;
pandas raises a `KeyError` naming the missing tickers when one is absent. -/
def selectColumnsTable (closes : PriceTable) (ts : List String) :
    Except MergeError PriceTable :=
  if (ts.filter (fun t => !(closes.cols.any (fun c => c.1 == t)))).isEmpty then
    .ok ⟨closes.dates, ts.map (fun t => (t, lookupCol closes t))⟩
  else
    .error (.tickerNotFound (ts.filter (fun t => !(closes.cols.any (fun c => c.1 == t)))))

/-- Pandas `filtered.reset_index().melt(id_vars="Date", var_name="ticker",
value_name="price")`: one block of rows per value column, in column order,
each block running through the dates in index order. -/
def meltTable (t : PriceTable) : List TrajRow :=
  t.cols.flatMap (fun c => (t.dates.zip c.2).map (fun dp => ⟨dp.1, c.1, dp.2⟩))

/-- The function `merge_top_history(summary, closes)`: read the summary's tickers,
select those columns and reshape them into long format. -/
def merge_top_history (summary : List SummaryRow) (closes : PriceTable) :
    Except MergeError (List TrajRow) :=
  (selectColumnsTable closes (summary.map (fun r => r.ticker))).map meltTable

/-- The two frames `merge_top_history` can reach, for the frame-effect
claim: the summary and the wide price table. -/
structure PdState where
  summary : List SummaryRow
  closes : PriceTable
deriving DecidableEq, Repr

/-- The read `summary["ticker"].tolist()`: a read of the summary frame (pandas
`__getitem__`/`tolist` allocate fresh objects and leave the frame alone). -/
def readTickers (st : PdState) : PdState × List String :=
  (st, st.summary.map (fun r => r.ticker))

/-- The selection `closes[tickers]`: list-indexing a frame copies the selected columns
into a fresh frame (or raises); the receiver is untouched. -/
def selectColumnsOp (st : PdState) (ts : List String) :
    PdState × Except MergeError PriceTable :=
  (st, selectColumnsTable st.closes ts)

/-- The reshape `filtered.reset_index().melt(...)`: both calls are used without
`inplace` and return fresh frames. -/
def meltOp (st : PdState) (filtered : PriceTable) : PdState × List TrajRow :=
  (st, meltTable filtered)

/-- The function `merge_top_history` as a state-passing composition of its three pandas
calls, making any mutation of the two input frames representable. -/
def merge_top_history_run (st : PdState) :
    PdState × Except MergeError (List TrajRow) :=
  let (st1, tickers) := readTickers st
  let (st2, sel) := selectColumnsOp st1 tickers
  match sel with
  | .error e => (st2, .error e)
  | .ok filtered =>
    let (st3, melted) := meltOp st2 filtered
    (st3, .ok melted)

instance instDecidableEqExcept {ε α : Type} [DecidableEq ε] [DecidableEq α] :
    DecidableEq (Except ε α) :=
  fun a b =>
    match a, b with
    | .ok x, .ok y => if h : x = y then .isTrue (by rw [h]) else .isFalse (by simp [h])
    | .error x, .error y => if h : x = y then .isTrue (by rw [h]) else .isFalse (by simp [h])
    | .ok _, .error _ => .isFalse (by simp)
    | .error _, .ok _ => .isFalse (by simp)

/-! ## Properties of the stable descending sort -/

theorem length_insertDesc (x : SummaryRow) :
    ∀ l : List SummaryRow, (insertDesc x l).length = l.length + 1
  | [] => rfl
  | y :: ys => by
    rw [insertDesc]
    split
    · rfl
    · simp [length_insertDesc x ys]

theorem length_sortDesc : ∀ l : List SummaryRow, (sortDesc l).length = l.length
  | [] => rfl
  | x :: xs => by rw [sortDesc, length_insertDesc, length_sortDesc xs, List.length_cons]

theorem mem_insertDesc {a x : SummaryRow} :
    ∀ {l : List SummaryRow}, a ∈ insertDesc x l ↔ a = x ∨ a ∈ l
  | [] => by simp [insertDesc]
  | y :: ys => by
    rw [insertDesc]
    split
    · simp [List.mem_cons]
    · simp only [List.mem_cons, mem_insertDesc (l := ys)]
      tauto

theorem mem_sortDesc {a : SummaryRow} :
    ∀ {l : List SummaryRow}, a ∈ sortDesc l ↔ a ∈ l
  | [] => Iff.rfl
  | x :: xs => by
    rw [sortDesc, mem_insertDesc, List.mem_cons, mem_sortDesc (l := xs)]

theorem pairwise_insertDesc (x : SummaryRow) :
    ∀ l : List SummaryRow,
      l.Pairwise (fun a b => b.pct_change ≤ a.pct_change) →
      (insertDesc x l).Pairwise (fun a b => b.pct_change ≤ a.pct_change)
  | [], _ => List.pairwise_singleton ..
  | y :: ys, h => by
    rw [insertDesc]
    have h' := List.pairwise_cons.mp h
    split
    · refine List.pairwise_cons.mpr ⟨fun z hz => ?_, h⟩
      rcases List.mem_cons.mp hz with rfl | hz'
      · assumption
      · exact le_trans (h'.1 z hz') (by assumption)
    · refine List.pairwise_cons.mpr ⟨fun z hz => ?_, pairwise_insertDesc x ys h'.2⟩
      rcases mem_insertDesc.mp hz with rfl | hz'
      · exact le_of_not_le (by assumption)
      · exact h'.1 z hz'

theorem pairwise_sortDesc :
    ∀ l : List SummaryRow,
      (sortDesc l).Pairwise (fun a b => b.pct_change ≤ a.pct_change)
  | [] => List.Pairwise.nil
  | x :: xs => pairwise_insertDesc x (sortDesc xs) (pairwise_sortDesc xs)

/-- The shape of a successful ranking: the sorted base summary truncated to
`top_n` rows. -/
theorem rank_ok_shape {closes : PriceTable} {top_n : Int} {s : List SummaryRow}
    (h : rank_on_table closes top_n = .ok s) :
    s = (sortDesc (baseSummary closes)).take top_n.toNat := by
  unfold rank_on_table rank_core at h
  split at h
  · exact absurd h (by simp)
  · split at h
    · exact absurd h (by simp)
    · exact (Except.ok.injEq .. ▸ h).symm

/-! ## The claims about the ranking engine -/

set_option maxRecDepth 8000 in
/-- Claim C1: on the 2-day table `A: [100, 110]`, `B: [50, 45]`,
`C: [10, 10]` with `top_n = 2`, the ranking engine returns exactly the two
rows `(A, 100, 110, 10.0)` then `(C, 10, 10, 0.0)`, with `B` excluded. -/
theorem rank_two_day_scenario :
    rank_on_table ⟨[0, 1], [("A", [100, 110]), ("B", [50, 45]), ("C", [10, 10])]⟩ 2 =
      .ok [⟨"A", 100, 110, 10⟩, ⟨"C", 10, 10, 0⟩] := by
  with_unfolding_all decide

/-- Claim C2: every summary the ranking engine returns has its `pct_change`
column non-increasing from the first row to the last. -/
theorem rank_pct_change_descending (closes : PriceTable) (top_n : Int)
    (s : List SummaryRow) (h : rank_on_table closes top_n = .ok s) :
    s.Pairwise (fun a b => b.pct_change ≤ a.pct_change) := by
  obtain rfl := rank_ok_shape h
  exact (pairwise_sortDesc _).sublist (List.take_sublist ..)

set_option maxRecDepth 8000 in
theorem rank_pct_change_descending_witness :
    ([⟨"A", 100, 110, 10⟩, ⟨"C", 10, 10, 0⟩] : List SummaryRow).Pairwise
      (fun a b => b.pct_change ≤ a.pct_change) :=
  rank_pct_change_descending
    ⟨[0, 1], [("A", [100, 110]), ("B", [50, 45]), ("C", [10, 10])]⟩ 2 _
    (by with_unfolding_all decide)

/-- Claim C3: a successful ranking returns exactly
`min top_n (number of ticker columns)` rows: all tickers, with no error and
no padding, when fewer than `top_n` are available. -/
theorem rank_row_count (closes : PriceTable) (top_n : Int)
    (s : List SummaryRow) (h : rank_on_table closes top_n = .ok s) :
    s.length = min top_n.toNat closes.cols.length := by
  obtain rfl := rank_ok_shape h
  rw [List.length_take, length_sortDesc]
  unfold baseSummary
  rw [List.length_map]

set_option maxRecDepth 8000 in
theorem rank_row_count_witness :
    ([⟨"A", 100, 110, 10⟩, ⟨"C", 10, 10, 0⟩] : List SummaryRow).length =
      min (Int.toNat 2)
        (PriceTable.mk [0, 1] [("A", [100, 110]), ("B", [50, 45]), ("C", [10, 10])]).cols.length :=
  rank_row_count
    ⟨[0, 1], [("A", [100, 110]), ("B", [50, 45]), ("C", [10, 10])]⟩ 2 _
    (by with_unfolding_all decide)

set_option maxRecDepth 8000 in
/-- Claim C5 as stated is false: recomputing the percentage change from the
ROUNDED `start_price`/`end_price` of a row can differ from the stored
`pct_change` far beyond any rounding tolerance.  With raw prices
`0.014 → 0.016` the stored figure is `14.29` while the rounded prices
`0.01 → 0.02` give `100.0`. -/
theorem rank_pct_roundtrip_counterexample :
    rank_on_table ⟨[0, 1], [("X", [14/1000, 16/1000])]⟩ 1 =
      .ok [⟨"X", 1/100, 2/100, 1429/100⟩]
    ∧ ¬ |(1429 : Rat)/100 - round2 ((2/100 - 1/100) / (1/100) * 100)| ≤ 1/2 := by
  with_unfolding_all decide

/-- Claim C5 amended: each summary row's `pct_change` is the 2-decimal
rounding of the percentage change computed from the row's UNROUNDED first
and last column prices (of which `start_price`/`end_price` are the
2-decimal roundings). -/
theorem rank_pct_from_unrounded_prices (closes : PriceTable) (top_n : Int)
    (s : List SummaryRow) (h : rank_on_table closes top_n = .ok s) :
    ∀ r ∈ s, ∃ c ∈ closes.cols,
      r.ticker = c.1 ∧
      r.start_price = round2 (c.2.headD 0) ∧
      r.end_price = round2 (c.2.getLastD 0) ∧
      r.pct_change = round2 ((c.2.getLastD 0 - c.2.headD 0) / c.2.headD 0 * 100) := by
  obtain rfl := rank_ok_shape h
  intro r hr
  have hr2 : r ∈ baseSummary closes := mem_sortDesc.mp (List.mem_of_mem_take hr)
  obtain ⟨c, hc, rfl⟩ := List.mem_map.mp hr2
  exact ⟨c, hc, rfl, rfl, rfl, rfl⟩

set_option maxRecDepth 8000 in
theorem rank_pct_from_unrounded_prices_witness :
    ∃ c ∈ (PriceTable.mk [0, 1]
        [("A", [100, 110]), ("B", [50, 45]), ("C", [10, 10])]).cols,
      (SummaryRow.mk "A" 100 110 10).ticker = c.1 ∧
      (SummaryRow.mk "A" 100 110 10).start_price = round2 (c.2.headD 0) ∧
      (SummaryRow.mk "A" 100 110 10).end_price = round2 (c.2.getLastD 0) ∧
      (SummaryRow.mk "A" 100 110 10).pct_change =
        round2 ((c.2.getLastD 0 - c.2.headD 0) / c.2.headD 0 * 100) :=
  rank_pct_from_unrounded_prices
    ⟨[0, 1], [("A", [100, 110]), ("B", [50, 45]), ("C", [10, 10])]⟩ 2
    [⟨"A", 100, 110, 10⟩, ⟨"C", 10, 10, 0⟩]
    (by with_unfolding_all decide) ⟨"A", 100, 110, 10⟩
    (by with_unfolding_all decide)

/-! ## The claims about retrieval -/

set_option maxRecDepth 8000 in
/-- Claim C6 is false as stated: a raw table that only becomes empty during
normalization (every date has some missing cell, here across tickers `A`
and `B`) is returned as an empty successful table, not signalled as
`DataUnavailable`. -/
theorem fetch_post_normalization_empty_counterexample :
    fetch_history ["A", "B"] 30
        (fun _ => .ok ⟨[0, 1], [("A", [some 1, none]), ("B", [none, some 1])]⟩) =
      .ok ⟨[], [("A", []), ("B", [])]⟩
    ∧ PriceTable.isEmptyTable ⟨[], [("A", []), ("B", [])]⟩ = true := by
  with_unfolding_all decide

/-- Claim C6 amended: with valid arguments and a transport-error-free
source, retrieval signals `DataUnavailable` exactly when the raw table is
empty before normalization; a table that becomes empty only during
normalization is returned as an empty success (which the ranking step of
the pipeline then rejects). -/
theorem fetch_dataUnavailable_iff_raw_empty (tickers : List String) (days : Int)
    (raw : RawTable) (h1 : tickers ≠ []) (h2 : 0 < days)
    (h3 : normalizeTickers tickers ≠ []) :
    ((∃ m, fetch_history tickers days (fun _ => .ok raw) =
        .error (.dataUnavailable m)) ↔ raw.isEmptyTable = true)
    ∧ (raw.isEmptyTable = false →
        fetch_history tickers days (fun _ => .ok raw) =
          .ok (tailTable days.toNat (normalizeRaw raw))) := by
  have e1 : tickers.isEmpty = false := by simp [List.isEmpty_iff, h1]
  have e2 : ¬ days ≤ 0 := by omega
  have e3 : (normalizeTickers tickers).isEmpty = false := by
    simp [List.isEmpty_iff]
    exact h3
  cases hraw : raw.isEmptyTable <;>
    simp [fetch_history, e1, e2, e3, hraw]

set_option maxRecDepth 8000 in
theorem fetch_dataUnavailable_iff_raw_empty_witness :
    ((∃ m, fetch_history ["A"] 30 (fun _ => .ok ⟨[], []⟩) =
        .error (.dataUnavailable m)) ↔ RawTable.isEmptyTable ⟨[], []⟩ = true)
    ∧ (RawTable.isEmptyTable ⟨[], []⟩ = false →
        fetch_history ["A"] 30 (fun _ => .ok ⟨[], []⟩) =
          .ok (tailTable (Int.toNat 30) (normalizeRaw ⟨[], []⟩))) :=
  fetch_dataUnavailable_iff_raw_empty ["A"] 30 ⟨[], []⟩ (by decide)
    (by decide) (by with_unfolding_all decide)

/-- Claim C7: an empty ticker collection (or one empty after
trimming/normalization), a non-positive `days` or a non-positive `top_n`
is rejected with `InvalidArgument` whatever the data source would answer:
no upstream fetch influences the outcome. -/
theorem invalid_arguments_rejected_before_fetch (tickers : List String)
    (days top_n : Int)
    (h : top_n ≤ 0 ∨ tickers = [] ∨ days ≤ 0 ∨ normalizeTickers tickers = []) :
    ∀ download, ∃ m,
      rank_top_performers tickers days top_n download =
        .error (.invalidArgument m) := by
  intro download
  unfold rank_top_performers
  by_cases h0 : top_n ≤ 0
  · exact ⟨"top_n must be a positive integer", by rw [if_pos h0]⟩
  · replace h := h.resolve_left h0
    rw [if_neg h0]
    by_cases ht : tickers = []
    · refine ⟨"At least one ticker must be provided", ?_⟩
      simp [fetch_history, ht, Except.bind]
    · have ht' : tickers.isEmpty = false := by simp [List.isEmpty_iff, ht]
      by_cases hd : days ≤ 0
      · refine ⟨"Days must be a positive integer", ?_⟩
        simp [fetch_history, ht', hd, Except.bind]
      · have hn : normalizeTickers tickers = [] := by
          rcases h with h | h | h
          · exact absurd h ht
          · exact absurd h hd
          · exact h
        refine ⟨"No valid ticker symbols provided", ?_⟩
        simp [fetch_history, ht', hd, hn, Except.bind]

theorem invalid_arguments_rejected_before_fetch_witness :
    ∃ m, rank_top_performers ["A"] 30 0 (fun _ => .error "network down") =
      .error (.invalidArgument m) :=
  invalid_arguments_rejected_before_fetch ["A"] 30 0 (Or.inl (by decide))
    (fun _ => .error "network down")

/-! ## The claims about reshaping -/

theorem sum_map_const {α : Type} (l : List α) (k : Nat) :
    (l.map (fun _ => k)).sum = l.length * k := by
  induction l with
  | nil => simp
  | cons a l ih => simp [ih, Nat.succ_mul, Nat.add_comm]

/-- A successful `merge_top_history` call means every summary ticker was
found, and the result is the melt of the selected columns. -/
theorem merge_ok_shape {summary : List SummaryRow} {closes : PriceTable}
    {m : List TrajRow} (hok : merge_top_history summary closes = .ok m) :
    (∀ t ∈ summary.map (fun r => r.ticker),
      closes.cols.any (fun c => c.1 == t) = true)
    ∧ m = meltTable ⟨closes.dates,
        (summary.map (fun r => r.ticker)).map (fun t => (t, lookupCol closes t))⟩ := by
  unfold merge_top_history selectColumnsTable at hok
  split at hok
  · next hemp =>
    refine ⟨?_, by simpa [Except.map] using hok.symm⟩
    intro t ht
    have := List.isEmpty_iff.mp hemp
    rw [List.filter_eq_nil_iff] at this
    have := this t ht
    simpa using this
  · exact absurd hok (by simp [Except.map])

/-- The column found for a present ticker has the full date-index length
in a well-formed table. -/
theorem lookupCol_length {closes : PriceTable} {t : String}
    (hwf : ∀ c ∈ closes.cols, c.2.length = closes.dates.length)
    (h : closes.cols.any (fun c => c.1 == t) = true) :
    (lookupCol closes t).length = closes.dates.length := by
  unfold lookupCol
  cases hf : closes.cols.find? (fun c => c.1 == t) with
  | none =>
    rw [List.find?_eq_none] at hf
    obtain ⟨c, hc, hct⟩ := List.any_eq_true.mp h
    exact absurd hct (hf c hc)
  | some c => exact hwf c (List.mem_of_find?_eq_some hf)

/-- Filtering one melted column block by ticker keeps all of it or none. -/
theorem filter_ticker_block (dates : List Nat) (t' t : String) (col : List Rat) :
    ((dates.zip col).map (fun dp => TrajRow.mk dp.1 t' dp.2)).filter
        (fun r => r.ticker == t) =
      if t' = t then (dates.zip col).map (fun dp => TrajRow.mk dp.1 t' dp.2)
      else [] := by
  split
  · next h =>
    refine List.filter_eq_self.mpr fun r hr => ?_
    obtain ⟨dp, -, rfl⟩ := List.mem_map.mp hr
    simp [h]
  · next h =>
    refine List.filter_eq_nil_iff.mpr fun r hr => ?_
    obtain ⟨dp, -, rfl⟩ := List.mem_map.mp hr
    simp [h]

/-- A ticker absent from the selection contributes nothing to the melt. -/
theorem filter_ticker_melt_not_mem (dates : List Nat) (ts : List String)
    (F : String → List Rat) {t : String} (h : t ∉ ts) :
    ((ts.map (fun t' => (t', F t'))).flatMap
        (fun c => (dates.zip c.2).map (fun dp => TrajRow.mk dp.1 c.1 dp.2))).filter
      (fun r => r.ticker == t) = [] := by
  refine List.filter_eq_nil_iff.mpr fun r hr => ?_
  obtain ⟨c, hc, hrc⟩ := List.mem_flatMap.mp hr
  obtain ⟨t', ht', rfl⟩ := List.mem_map.mp hc
  obtain ⟨dp, -, rfl⟩ := List.mem_map.mp hrc
  intro he
  rw [beq_iff_eq] at he
  exact h (he ▸ ht')

/-- The melt's rows for a selected ticker are exactly its own column
block. -/
theorem filter_ticker_melt (dates : List Nat) (ts : List String)
    (F : String → List Rat) {t : String} (hnd : ts.Nodup) (ht : t ∈ ts) :
    ((ts.map (fun t' => (t', F t'))).flatMap
        (fun c => (dates.zip c.2).map (fun dp => TrajRow.mk dp.1 c.1 dp.2))).filter
      (fun r => r.ticker == t) =
      (dates.zip (F t)).map (fun dp => TrajRow.mk dp.1 t dp.2) := by
  induction ts with
  | nil => cases ht
  | cons t0 rest ih =>
    have h0 : t0 ∉ rest := (List.nodup_cons.mp hnd).1
    rw [List.map_cons, List.flatMap_cons, List.filter_append, filter_ticker_block]
    rcases List.mem_cons.mp ht with rfl | hmem
    · rw [if_pos rfl, filter_ticker_melt_not_mem dates rest F h0, List.append_nil]
    · rw [if_neg (fun he => h0 (by rw [show t0 = t from he]; exact hmem)), List.nil_append,
        ih (List.nodup_cons.mp hnd).2 hmem]

/-- In a row list running through `dates` in order, a date of a duplicate-
free index matches exactly one row. -/
theorem filter_date_once (rows : List TrajRow) (dates : List Nat)
    (hmap : rows.map (fun r => r.date) = dates) (hnd : dates.Nodup)
    {d : Nat} (hd : d ∈ dates) :
    (rows.filter (fun r => r.date == d)).length = 1 := by
  induction rows generalizing dates with
  | nil => subst hmap; cases hd
  | cons r rs ih =>
    subst hmap
    have h1 : r.date ∉ rs.map (fun r => r.date) := (List.nodup_cons.mp hnd).1
    by_cases hrd : r.date = d
    · rw [List.filter_cons_of_pos (by simpa using hrd)]
      have hnil : rs.filter (fun x => x.date == d) = [] := by
        refine List.filter_eq_nil_iff.mpr fun x hx => ?_
        intro he
        rw [beq_iff_eq] at he
        have hx' : d ∈ rs.map (fun r => r.date) := by
          rw [← he]
          exact List.mem_map_of_mem (fun r => r.date) hx
        rw [← hrd] at hx'
        exact h1 hx'
      simp [hnil]
    · rw [List.filter_cons_of_neg (by simpa using hrd)]
      have hmem : d ∈ rs.map (fun r => r.date) := by
        rcases List.mem_cons.mp hd with h | h
        · exact absurd h.symm hrd
        · exact h
      exact ih (rs.map (fun r => r.date)) rfl (List.nodup_cons.mp hnd).2 hmem

/-- Claim C8: a successful reshape over a well-formed table (full columns,
duplicate-free dates and summary tickers) has one row per
(ticker, date) pair — `tickers × dates` rows in total, each pair matched
exactly once — and within each ticker the dates appear exactly in the
table's chronological index order. -/
theorem merge_long_format_shape (summary : List SummaryRow) (closes : PriceTable)
    (m : List TrajRow) (hok : merge_top_history summary closes = .ok m)
    (hnd : (summary.map (fun r => r.ticker)).Nodup)
    (hwf : ∀ c ∈ closes.cols, c.2.length = closes.dates.length)
    (hdd : closes.dates.Nodup) :
    m.length = (summary.map (fun r => r.ticker)).length * closes.dates.length
    ∧ (∀ t ∈ summary.map (fun r => r.ticker),
        (m.filter (fun r => r.ticker == t)).map (fun r => r.date) = closes.dates)
    ∧ (∀ t ∈ summary.map (fun r => r.ticker), ∀ d ∈ closes.dates,
        (m.filter (fun r => r.ticker == t && r.date == d)).length = 1) := by
  obtain ⟨hall, rfl⟩ := merge_ok_shape hok
  have hzip : ∀ t ∈ summary.map (fun r => r.ticker),
      (closes.dates.zip (lookupCol closes t)).length = closes.dates.length := by
    intro t ht
    rw [List.length_zip, lookupCol_length hwf (hall t ht), Nat.min_self]
  have hticker : ∀ t ∈ summary.map (fun r => r.ticker),
      (meltTable ⟨closes.dates,
          (summary.map (fun r => r.ticker)).map
            (fun t => (t, lookupCol closes t))⟩).filter (fun r => r.ticker == t) =
        (closes.dates.zip (lookupCol closes t)).map
          (fun dp => TrajRow.mk dp.1 t dp.2) := by
    intro t ht
    exact filter_ticker_melt closes.dates (summary.map (fun r => r.ticker))
      (lookupCol closes) hnd ht
  have hdates : ∀ t ∈ summary.map (fun r => r.ticker),
      ((meltTable ⟨closes.dates,
          (summary.map (fun r => r.ticker)).map
            (fun t => (t, lookupCol closes t))⟩).filter
        (fun r => r.ticker == t)).map (fun r => r.date) = closes.dates := by
    intro t ht
    rw [hticker t ht, List.map_map]
    have hlen : closes.dates.length ≤ (lookupCol closes t).length :=
      le_of_eq (lookupCol_length hwf (hall t ht)).symm
    exact List.map_fst_zip closes.dates (lookupCol closes t) hlen
  refine ⟨?_, hdates, ?_⟩
  · unfold meltTable
    rw [List.length_flatMap, List.map_map]
    calc (List.map _ (summary.map (fun r => r.ticker))).sum
        = ((summary.map (fun r => r.ticker)).map (fun _ => closes.dates.length)).sum := by
          refine congrArg List.sum (List.map_eq_map_iff.mpr fun t ht => ?_)
          simp only [Function.comp_apply, List.length_map]
          exact hzip t ht
      _ = (summary.map (fun r => r.ticker)).length * closes.dates.length :=
          sum_map_const ..
  · intro t ht d hd
    have hsplit : (meltTable ⟨closes.dates,
          (summary.map (fun r => r.ticker)).map
            (fun t => (t, lookupCol closes t))⟩).filter
          (fun r => r.ticker == t && r.date == d) =
        ((meltTable ⟨closes.dates,
          (summary.map (fun r => r.ticker)).map
            (fun t => (t, lookupCol closes t))⟩).filter
          (fun r => r.ticker == t)).filter (fun r => r.date == d) := by
      rw [List.filter_filter]
      exact List.filter_congr (fun r _ => by rw [Bool.and_comm])
    rw [hsplit]
    exact filter_date_once _ closes.dates (hdates t ht) hdd hd

set_option maxRecDepth 8000 in
theorem merge_long_format_shape_witness :
    (let m := [TrajRow.mk 0 "A" 100, TrajRow.mk 1 "A" 110,
               TrajRow.mk 0 "C" 10, TrajRow.mk 1 "C" 10]
     let summary : List SummaryRow := [⟨"A", 100, 110, 10⟩, ⟨"C", 10, 10, 0⟩]
     let closes : PriceTable :=
       ⟨[0, 1], [("A", [100, 110]), ("B", [50, 45]), ("C", [10, 10])]⟩
     m.length = (summary.map (fun r => r.ticker)).length * closes.dates.length
     ∧ (∀ t ∈ summary.map (fun r => r.ticker),
         (m.filter (fun r => r.ticker == t)).map (fun r => r.date) = closes.dates)
     ∧ (∀ t ∈ summary.map (fun r => r.ticker), ∀ d ∈ closes.dates,
         (m.filter (fun r => r.ticker == t && r.date == d)).length = 1)) :=
  merge_long_format_shape [⟨"A", 100, 110, 10⟩, ⟨"C", 10, 10, 0⟩]
    ⟨[0, 1], [("A", [100, 110]), ("B", [50, 45]), ("C", [10, 10])]⟩
    [⟨0, "A", 100⟩, ⟨1, "A", 110⟩, ⟨0, "C", 10⟩, ⟨1, "C", 10⟩]
    (by with_unfolding_all decide) (by with_unfolding_all decide)
    (by with_unfolding_all decide) (by with_unfolding_all decide)

/-- Claim C9: the reshape fails — with `TickerNotFound`, the only error it
has — exactly when some summary ticker is absent from the price table's
columns. -/
theorem merge_tickerNotFound_iff (summary : List SummaryRow) (closes : PriceTable) :
    (∃ e, merge_top_history summary closes = .error e) ↔
      ∃ r ∈ summary, ∀ c ∈ closes.cols, c.1 ≠ r.ticker := by
  unfold merge_top_history selectColumnsTable
  split
  · next hemp =>
    simp only [Except.map]
    constructor
    · rintro ⟨e, he⟩
      cases he
    · rintro ⟨r, hr, hall⟩
      have h1 := List.isEmpty_iff.mp hemp
      rw [List.filter_eq_nil_iff] at h1
      have h2 := h1 r.ticker (List.mem_map_of_mem (fun r => r.ticker) hr)
      have h3 : closes.cols.any (fun c => c.1 == r.ticker) = true := by
        simpa using h2
      obtain ⟨c, hc, hct⟩ := List.any_eq_true.mp h3
      exact absurd (beq_iff_eq.mp hct) (hall c hc)
  · next hemp =>
    simp only [Except.map]
    constructor
    · intro _
      have hne : (summary.map (fun r => r.ticker)).filter
          (fun t => !(closes.cols.any (fun c => c.1 == t))) ≠ [] := by
        intro hnil
        exact hemp (by rw [hnil]; rfl)
      obtain ⟨t, hmem⟩ := List.exists_mem_of_ne_nil _ hne
      have hsplit := List.mem_filter.mp hmem
      obtain ⟨r, hr, rfl⟩ := List.mem_map.mp hsplit.1
      refine ⟨r, hr, fun c hc he => ?_⟩
      have h3 : closes.cols.any (fun c => c.1 == r.ticker) = false := by
        simpa using hsplit.2
      rw [List.any_eq_false] at h3
      exact absurd (beq_iff_eq.mpr he) (h3 c hc)
    · intro _
      exact ⟨_, rfl⟩

/-- Claim C10: run as a state-passing composition of its pandas calls,
`merge_top_history` leaves both input frames exactly as they were and
returns the fresh melted result. -/
theorem merge_leaves_inputs_unchanged (st : PdState) :
    (merge_top_history_run st).1 = st
    ∧ (merge_top_history_run st).2 = merge_top_history st.summary st.closes := by
  unfold merge_top_history_run readTickers selectColumnsOp meltOp merge_top_history
  cases h : selectColumnsTable st.closes (st.summary.map (fun r => r.ticker)) <;>
    simp [h, Except.map]

end Stocks
